import Mathlib

/-!
Verification development for the transactions-processor ledger engine.

The definitions below are a shallow embedding of the Rust sources:
`src/api/currency.rs` (the fixed-point money type `Currency`),
`src/api/engine/account.rs` (the per-client `Account` record) and
`src/api/engine.rs` (the `Engine` with deposit / withdrawal / dispute /
resolve / chargeback).  Machine integers (`u64`) are modelled as `Nat`
with explicit bound checks against `2^64 - 1`, matching the Rust code's
use of `checked_add` / `checked_sub` / `checked_mul` (which fail instead
of wrapping, so no modular arithmetic ever occurs).  The engine's three
containers (account table, transaction log, disputed set) are modelled
as association lists / lists of keys; the locks only serialize access
and have no sequential semantics.
-/

set_option maxRecDepth 4096

deriving instance DecidableEq for Except

/-- `u64::MAX` in the Rust sources. -/
def U64MAX : Nat := 18446744073709551615

/-- `PRECISION` constant of `currency.rs`. -/
def PRECISION : Nat := 4

/-- `BASE = 10^PRECISION` constant of `currency.rs`. -/
def BASE : Nat := 10 ^ PRECISION

/-- `CurrencyError` enum of `src/api/currency/error.rs` (the
`ParseIntError` payloads of the two parse variants are dropped). -/
inductive CurrencyError where
  | CannotGetDecimalPart
  | CannotParseDecimalPart
  | CannotParseFractionalPart
  | FractionalTooLong (fractional : String)
  | DecimalMultipliedByPrecisionOutOfRange (decimal : Nat)
  | DecimalAddedFractionalOutOfRange (decimal fractional : Nat)
  | FractionalOutOfRange (fractional : Nat)
  | AddingOtherOutOfRange
  | SubstractingOtherNegative
  deriving DecidableEq, Repr

/-- `Currency` of `src/api/currency.rs`: a tuple struct around a `u64`
holding the amount scaled by `BASE`. -/
structure Currency where
  val : Nat
  deriving DecidableEq, Repr

/-- Well-formedness: the wrapped value fits in a `u64` (automatic in
Rust, explicit here). -/
def Currency.wf (c : Currency) : Prop := c.val ≤ U64MAX

instance (c : Currency) : Decidable c.wf := by
  unfold Currency.wf; infer_instance

/-- `Currency::new(decimal, fractional)` of `currency.rs`. -/
def Currency.new (decimal fractional : Nat) : Except CurrencyError Currency :=
  if fractional ≥ BASE then
    .error (.FractionalOutOfRange fractional)
  else if decimal * BASE > U64MAX then
    .error (.DecimalMultipliedByPrecisionOutOfRange decimal)
  else if decimal * BASE + fractional > U64MAX then
    .error (.DecimalAddedFractionalOutOfRange decimal fractional)
  else
    .ok ⟨decimal * BASE + fractional⟩

/-- `Currency::max()` of `currency.rs`: built through `new` with
`u64::MAX / BASE` and `u64::MAX % BASE`, which yields the value
`u64::MAX` itself. -/
def Currency.maxValue : Currency := ⟨U64MAX⟩

/-- `Currency::add` of `currency.rs`: `checked_add`, fails with
`AddingOtherOutOfRange` on overflow.  The Rust method mutates `self`
only on success; here the successful new value is returned. -/
def Currency.add (a b : Currency) : Except CurrencyError Currency :=
  if a.val + b.val > U64MAX then
    .error .AddingOtherOutOfRange
  else
    .ok ⟨a.val + b.val⟩

/-- `Currency::substract` of `currency.rs`: `checked_sub`, fails with
`SubstractingOtherNegative` when `b > a`. -/
def Currency.substract (a b : Currency) : Except CurrencyError Currency :=
  if b.val > a.val then
    .error .SubstractingOtherNegative
  else
    .ok ⟨a.val - b.val⟩

/-- Value of a list of decimal digit characters, `none` on a non-digit;
helper for the `str::parse::<u64>` model. -/
def digitsVal (acc : Nat) : List Char → Option Nat
  | [] => some acc
  | c :: rest =>
      if c.isDigit then digitsVal (acc * 10 + (c.toNat - 48)) rest
      else none

/-- `str::parse::<u64>()` as used by `currency.rs`, on the character
list of the string: an optional leading plus sign, then one or more
decimal digits, value within `u64` range. -/
def parseU64 (s : List Char) : Option Nat :=
  match (match s with
         | Char.ofNat 43 :: rest => rest
         | l => l) with
  | [] => none
  | cs =>
      match digitsVal 0 cs with
      | none => none
      | some n => if n > U64MAX then none else some n

/-- `str::split('.')` as used by `currency.rs`, on the character list:
splits on every separator occurrence; the empty input yields one empty
segment, as in Rust. -/
def splitOnDot : List Char → List (List Char)
  | [] => [[]]
  | c :: rest =>
      if c = '.' then [] :: splitOnDot rest
      else
        match splitOnDot rest with
        | [] => [[c]]
        | seg :: segs => (c :: seg) :: segs

/-- `impl TryFrom<&str> for Currency` of `currency.rs`: split on the
separator, parse the decimal part, right-pad the fractional part (at
most `PRECISION` digits long) with zeros to width `PRECISION`, parse
it, delegate to `new`.  Segments past the second are ignored, as with
Rust's iterator-based `split`. -/
def Currency.tryFrom (input : String) : Except CurrencyError Currency :=
  match splitOnDot input.data with
  | [] => .error .CannotGetDecimalPart
  | decimalStr :: rest =>
    match parseU64 decimalStr with
    | none => .error .CannotParseDecimalPart
    | some decimal =>
      let fractionalStr := match rest with
        | [] => [Char.ofNat 48]
        | f :: _ => f
      if fractionalStr.length > PRECISION then
        .error (.FractionalTooLong (String.mk fractionalStr))
      else
        let padded := fractionalStr ++
          List.replicate (PRECISION - fractionalStr.length) (Char.ofNat 48)
        match parseU64 padded with
        | none => .error .CannotParseFractionalPart
        | some fractional => Currency.new decimal fractional

/-- `impl fmt::Display for Currency` of `currency.rs`: writes
`decimal.fractional` where both parts are formatted as bare `u64`
values (no padding). -/
def Currency.render (c : Currency) : String :=
  toString (c.val / BASE) ++ "." ++ toString (c.val % BASE)

/-- `Account` of `src/api/engine/account.rs`. -/
structure Account where
  available : Currency
  held : Currency
  locked : Bool
  deriving DecidableEq, Repr

/-- `Account::default()`: zero balances, unlocked. -/
def Account.default : Account := ⟨⟨0⟩, ⟨0⟩, false⟩

/-- `EngineError` as constructed by `src/api/engine.rs` (the variants
the engine code actually produces, with their payloads). -/
inductive EngineError where
  | TransactionNotUnique (tx : Nat)
  | AccountLocked (client : Nat)
  | CannotDeposit (client tx : Nat) (amount : Currency) (source : CurrencyError)
  | CannotDepositTotalExceededMaxLimit (client tx : Nat)
      (amount available held : Currency) (source : CurrencyError)
  | DepositTryAgain (tx : Nat)
  | CannotWithdrawal (client tx : Nat) (amount : Currency) (source : CurrencyError)
  | AccountDoesNotExist (client : Nat)
  | CannotFindTransaction (tx : Nat)
  | DisputeAlreadyDisputed (tx : Nat)
  | CannotFindAccount (client : Nat)
  | DisputeCannotSubstractAvailable (source : CurrencyError)
  | DisputeCannotAddHeld (source : CurrencyError)
  | ResolveCannotAddAvailable (source : CurrencyError)
  | ResolveCannotSubstractHeld (source : CurrencyError)
  | TransactionNotDisputed (tx : Nat)
  | ChargebackCannotSubstractHeld (source : CurrencyError)
  deriving DecidableEq, Repr

/-- Lookup in an association list, modelling `HashMap::get`. -/
def lookupKey (k : Nat) : List (Nat × α) → Option α
  | [] => none
  | (k2, v) :: rest => if k = k2 then some v else lookupKey k rest

/-- Insert-or-replace in an association list, modelling
`HashMap::insert` (which overwrites an existing entry). -/
def upsert (k : Nat) (v : α) : List (Nat × α) → List (Nat × α)
  | [] => [(k, v)]
  | (k2, v2) :: rest =>
      if k = k2 then (k, v) :: rest else (k2, v2) :: upsert k v rest

/-- Insert into a key set, modelling `HashSet::insert`. -/
def insertSet (k : Nat) (s : List Nat) : List Nat :=
  if s.contains k then s else k :: s

/-- Remove from a key set, modelling `HashSet::remove`. -/
def eraseSet (k : Nat) (s : List Nat) : List Nat :=
  s.filter (fun x => x ≠ k)

/-- `Engine` of `src/api/engine.rs`: the client→account table, the
tx→amount transaction log, and the disputed-tx set.  The `RwLock` /
`Mutex` wrappers only serialize access and are dropped; client ids are
`u16` and transaction ids `u32` in Rust, modelled as `Nat` keys. -/
structure Engine where
  accounts : List (Nat × Account)
  transactions : List (Nat × Currency)
  transactionsDisputed : List Nat
  deriving DecidableEq, Repr

/-- `Engine::new()`. -/
def Engine.new : Engine := ⟨[], [], []⟩

/-- `Engine::record_transaction`: `HashMap::insert` the pair and fail
with `TransactionNotUnique` when an entry was already present.  Note
the insert happens in both cases, so a duplicate id overwrites the
stored amount even though an error is returned. -/
def Engine.record_transaction (e : Engine) (tx : Nat) (amount : Currency) :
    Except EngineError Unit × Engine :=
  let old := lookupKey tx e.transactions
  let e2 := { e with transactions := upsert tx amount e.transactions }
  match old with
  | some _ => (.error (.TransactionNotUnique tx), e2)
  | none => (.ok (), e2)

/-- `Engine::deposit` of `engine.rs`: record the transaction id first;
on an existing account check `locked`, compute the new `available` and
the would-be total `available + held` into temporaries (failing with
`CannotDeposit` / `CannotDepositTotalExceededMaxLimit`) and commit only
`available`; otherwise build a fresh account from `Account::default`
and insert it (the re-check of the entry yields `DepositTryAgain` only
under a concurrent race, never sequentially). -/
def Engine.deposit (e : Engine) (client tx : Nat) (amount : Currency) :
    Except EngineError Unit × Engine :=
  match e.record_transaction tx amount with
  | (.error err, e1) => (.error err, e1)
  | (.ok _, e1) =>
    match lookupKey client e1.accounts with
    | some account =>
        if account.locked then
          (.error (.AccountLocked client), e1)
        else
          match account.available.add amount with
          | .error source => (.error (.CannotDeposit client tx amount source), e1)
          | .ok available =>
            let held := account.held
            match available.add held with
            | .error source =>
                (.error (.CannotDepositTotalExceededMaxLimit client tx amount
                    available held source), e1)
            | .ok _total =>
                (.ok (), { e1 with
                  accounts := upsert client { account with available := available }
                    e1.accounts })
    | none =>
        match Account.default.available.add amount with
        | .error source => (.error (.CannotDeposit client tx amount source), e1)
        | .ok available =>
          match lookupKey client e1.accounts with
          | some _ => (.error (.DepositTryAgain tx), e1)
          | none =>
              (.ok (), { e1 with
                accounts := upsert client { Account.default with available := available }
                  e1.accounts })

/-- `Engine::withdrawal` of `engine.rs`: record the transaction id
first; fail when the account is missing or locked; checked-subtract the
amount from `available` (failing with `CannotWithdrawal`). -/
def Engine.withdrawal (e : Engine) (client tx : Nat) (amount : Currency) :
    Except EngineError Unit × Engine :=
  match e.record_transaction tx amount with
  | (.error err, e1) => (.error err, e1)
  | (.ok _, e1) =>
    match lookupKey client e1.accounts with
    | some account =>
        if account.locked then
          (.error (.AccountLocked client), e1)
        else
          match account.available.substract amount with
          | .error source => (.error (.CannotWithdrawal client tx amount source), e1)
          | .ok available =>
              (.ok (), { e1 with
                accounts := upsert client { account with available := available }
                  e1.accounts })
    | none => (.error (.AccountDoesNotExist client), e1)

/-- `Engine::get_transaction_amount` of `engine.rs`. -/
def Engine.get_transaction_amount (e : Engine) (tx : Nat) :
    Except EngineError Currency :=
  match lookupKey tx e.transactions with
  | none => .error (.CannotFindTransaction tx)
  | some amount => .ok amount

/-- `Engine::dispute` of `engine.rs`: reject an already-disputed id,
look up the recorded amount and the account, then subtract from
`available` and add to `held` directly on the account.  The Rust code
mutates `account.available` in place before attempting `held.add`, so
a `DisputeCannotAddHeld` failure leaves the `available` decrement
committed — the embedding reproduces that. -/
def Engine.dispute (e : Engine) (client tx : Nat) :
    Except EngineError Unit × Engine :=
  if e.transactionsDisputed.contains tx then
    (.error (.DisputeAlreadyDisputed tx), e)
  else
    match e.get_transaction_amount tx with
    | .error err => (.error err, e)
    | .ok amount =>
      match lookupKey client e.accounts with
      | none => (.error (.CannotFindAccount client), e)
      | some account =>
        match account.available.substract amount with
        | .error source => (.error (.DisputeCannotSubstractAvailable source), e)
        | .ok available =>
          match account.held.add amount with
          | .error source =>
              (.error (.DisputeCannotAddHeld source),
               { e with accounts :=
                  upsert client { account with available := available } e.accounts })
          | .ok held =>
              (.ok (), { e with
                accounts := upsert client
                  { account with available := available, held := held } e.accounts,
                transactionsDisputed := insertSet tx e.transactionsDisputed })

/-- `Engine::transaction_remove_from_disputed_list` of `engine.rs`. -/
def Engine.transaction_remove_from_disputed_list (e : Engine) (tx : Nat) : Engine :=
  { e with transactionsDisputed := eraseSet tx e.transactionsDisputed }

/-- `Engine::ensure_transaction_is_disputed` of `engine.rs`. -/
def Engine.ensure_transaction_is_disputed (e : Engine) (tx : Nat) :
    Except EngineError Unit :=
  if e.transactionsDisputed.contains tx then .ok ()
  else .error (.TransactionNotDisputed tx)

/-- `Engine::resolve` of `engine.rs`: look up the amount, require the
id to be disputed, then add to `available` and subtract from `held`
directly on the account.  As in `dispute`, the `available` increment is
committed in place before `held.substract` can fail, so a
`ResolveCannotSubstractHeld` failure leaves `available` increased. -/
def Engine.resolve (e : Engine) (client tx : Nat) :
    Except EngineError Unit × Engine :=
  match e.get_transaction_amount tx with
  | .error err => (.error err, e)
  | .ok amount =>
    match e.ensure_transaction_is_disputed tx with
    | .error err => (.error err, e)
    | .ok _ =>
      match lookupKey client e.accounts with
      | none => (.error (.CannotFindAccount client), e)
      | some account =>
        match account.available.add amount with
        | .error source => (.error (.ResolveCannotAddAvailable source), e)
        | .ok available =>
          match account.held.substract amount with
          | .error source =>
              (.error (.ResolveCannotSubstractHeld source),
               { e with accounts :=
                  upsert client { account with available := available } e.accounts })
          | .ok held =>
              let account2 := { account with available := available, held := held }
              let e2 := { e with accounts := upsert client account2 e.accounts }
              (.ok (), e2.transaction_remove_from_disputed_list tx)

/-- `Engine::chargeback` of `engine.rs`: look up the amount, require
the id to be disputed, subtract the amount from `held` only (failing
with `ChargebackCannotSubstractHeld` before `locked` is touched), set
`locked`, and drop the id from the disputed set. -/
def Engine.chargeback (e : Engine) (client tx : Nat) :
    Except EngineError Unit × Engine :=
  match e.get_transaction_amount tx with
  | .error err => (.error err, e)
  | .ok amount =>
    match e.ensure_transaction_is_disputed tx with
    | .error err => (.error err, e)
    | .ok _ =>
      match lookupKey client e.accounts with
      | none => (.error (.CannotFindAccount client), e)
      | some account =>
        match account.held.substract amount with
        | .error source => (.error (.ChargebackCannotSubstractHeld source), e)
        | .ok held =>
            let account2 := { account with held := held, locked := true }
            let e2 := { e with accounts := upsert client account2 e.accounts }
            (.ok (), e2.transaction_remove_from_disputed_list tx)

/-- The five operation kinds dispatched to the engine
(`src/api/transactions.rs` / `lib.rs`). -/
inductive Op where
  | deposit (client tx : Nat) (amount : Currency)
  | withdrawal (client tx : Nat) (amount : Currency)
  | dispute (client tx : Nat)
  | resolve (client tx : Nat)
  | chargeback (client tx : Nat)
  deriving DecidableEq, Repr

/-- Apply one operation to the engine, keeping the result. -/
def Engine.applyOp (e : Engine) : Op → Except EngineError Unit × Engine
  | .deposit client tx amount => e.deposit client tx amount
  | .withdrawal client tx amount => e.withdrawal client tx amount
  | .dispute client tx => e.dispute client tx
  | .resolve client tx => e.resolve client tx
  | .chargeback client tx => e.chargeback client tx

/-- Run a sequence of operations, discarding per-operation results
(as the record-processing loop of `lib.rs` does: a failed record is
only warned about and processing continues). -/
def Engine.run (e : Engine) : List Op → Engine
  | [] => e
  | op :: ops => Engine.run (e.applyOp op).2 ops

/-- Whether an operation is a deposit or a withdrawal carrying the
given transaction id (the two operation kinds that record ids). -/
def Op.usesTxId : Op → Nat → Prop
  | .deposit _ t _, tx => t = tx
  | .withdrawal _ t _, tx => t = tx
  | .dispute _ _, _ => False
  | .resolve _ _, _ => False
  | .chargeback _ _, _ => False

/-- The `locked` flag of a client's account, when the account exists. -/
def Engine.getLocked (e : Engine) (client : Nat) : Option Bool :=
  (lookupKey client e.accounts).map Account.locked

/-- The `available` balance of a client's account, as a raw value. -/
def Engine.getAvailable (e : Engine) (client : Nat) : Option Nat :=
  (lookupKey client e.accounts).map (fun a => a.available.val)

/-- The `held` balance of a client's account, as a raw value. -/
def Engine.getHeld (e : Engine) (client : Nat) : Option Nat :=
  (lookupKey client e.accounts).map (fun a => a.held.val)

example : Currency.new 1 1 = .ok ⟨10001⟩ := by decide
example : Currency.new 0 10000 = .error (.FractionalOutOfRange 10000) := by decide
example : Currency.tryFrom "0.1" = .ok ⟨1000⟩ := by decide
example : Currency.render ⟨10001⟩ = "1.1" := by decide
example : Currency.tryFrom "" = .error .CannotParseDecimalPart := by decide
example : Currency.tryFrom "0" = .ok ⟨0⟩ := by decide

example :
    (Engine.new.deposit 1 1 ⟨10001⟩).1 = .ok () := by decide
example :
    ((Engine.new.deposit 1 1 ⟨10001⟩).2.deposit 1 1 ⟨10001⟩).1
      = .error (.TransactionNotUnique 1) := by decide
example :
    ((Engine.new.deposit 1 1 ⟨10001⟩).2.withdrawal 1 1 ⟨10001⟩).1
      = .error (.TransactionNotUnique 1) := by decide
example :
    (Engine.new.withdrawal 1 1 ⟨10001⟩).1
      = .error (.AccountDoesNotExist 1) := by decide
example :
    ((Engine.new.deposit 1 1 ⟨10001⟩).2.dispute 1 1).1 = .ok () := by decide
example :
    (Engine.new.resolve 1 1).1 = .error (.CannotFindTransaction 1) := by decide
example :
    ((Engine.new.deposit 1 1 ⟨10001⟩).2.resolve 1 1).1
      = .error (.TransactionNotDisputed 1) := by decide
example :
    (Engine.run Engine.new
      [.deposit 1 1 ⟨10001⟩, .dispute 1 1, .chargeback 1 1]).getLocked 1
      = some true := by decide
example :
    ((Engine.run Engine.new
      [.deposit 1 1 ⟨10001⟩, .dispute 1 1, .chargeback 1 1]).deposit 1 2 ⟨10001⟩).1
      = .error (.AccountLocked 1) := by decide
example :
    ((Engine.new.deposit 1 1 Currency.maxValue).2.deposit 1 2 Currency.maxValue).1
      = .error (.CannotDeposit 1 2 Currency.maxValue .AddingOtherOutOfRange) := by
  decide

/-! ### Helper lemmas about the containers -/

theorem lookupKey_upsert {α : Type} (k k2 : Nat) (v : α) (l : List (Nat × α)) :
    lookupKey k (upsert k2 v l) = if k = k2 then some v else lookupKey k l := by
  induction l with
  | nil => simp [upsert, lookupKey]
  | cons p tl ih =>
      obtain ⟨k1, v1⟩ := p
      simp only [upsert]
      by_cases h2 : k2 = k1
      · subst h2
        simp only [if_pos rfl, lookupKey]
        by_cases h : k = k2 <;> simp [h]
      · simp only [if_neg h2, lookupKey]
        by_cases h : k = k1
        · subst h
          have hne : k ≠ k2 := fun hc => h2 hc.symm
          simp [hne]
        · simp [h, ih]

theorem lookupKey_upsert_self {α : Type} (k : Nat) (v : α) (l : List (Nat × α)) :
    lookupKey k (upsert k v l) = some v := by
  simp [lookupKey_upsert]

theorem lookupKey_upsert_ne {α : Type} (k k2 : Nat) (v : α) (l : List (Nat × α))
    (h : k ≠ k2) :
    lookupKey k (upsert k2 v l) = lookupKey k l := by
  simp [lookupKey_upsert, h]

/-! ### The transaction log across operations -/

theorem deposit_transactions_eq (e : Engine) (client tx : Nat) (amount : Currency) :
    (e.deposit client tx amount).2.transactions = upsert tx amount e.transactions := by
  cases h : lookupKey tx e.transactions with
  | some v => simp [Engine.deposit, Engine.record_transaction, h]
  | none =>
      simp only [Engine.deposit, Engine.record_transaction, h]
      repeat' split
      all_goals rfl

theorem withdrawal_transactions_eq (e : Engine) (client tx : Nat) (amount : Currency) :
    (e.withdrawal client tx amount).2.transactions = upsert tx amount e.transactions := by
  cases h : lookupKey tx e.transactions with
  | some v => simp [Engine.withdrawal, Engine.record_transaction, h]
  | none =>
      simp only [Engine.withdrawal, Engine.record_transaction, h]
      repeat' split
      all_goals rfl

theorem dispute_transactions_eq (e : Engine) (client tx : Nat) :
    (e.dispute client tx).2.transactions = e.transactions := by
  unfold Engine.dispute Engine.get_transaction_amount
  repeat' split
  all_goals rfl

theorem resolve_transactions_eq (e : Engine) (client tx : Nat) :
    (e.resolve client tx).2.transactions = e.transactions := by
  unfold Engine.resolve Engine.get_transaction_amount
    Engine.ensure_transaction_is_disputed Engine.transaction_remove_from_disputed_list
  repeat' split
  all_goals rfl

theorem chargeback_transactions_eq (e : Engine) (client tx : Nat) :
    (e.chargeback client tx).2.transactions = e.transactions := by
  unfold Engine.chargeback Engine.get_transaction_amount
    Engine.ensure_transaction_is_disputed Engine.transaction_remove_from_disputed_list
  repeat' split
  all_goals rfl

/-- A recorded transaction id stays recorded across any single
operation. -/
theorem applyOp_tx_mono (e : Engine) (op : Op) (tx : Nat)
    (h : (lookupKey tx e.transactions).isSome) :
    (lookupKey tx (e.applyOp op).2.transactions).isSome := by
  cases op with
  | deposit c t a =>
      simp only [Engine.applyOp, deposit_transactions_eq, lookupKey_upsert]
      split <;> simp_all
  | withdrawal c t a =>
      simp only [Engine.applyOp, withdrawal_transactions_eq, lookupKey_upsert]
      split <;> simp_all
  | dispute c t => simpa only [Engine.applyOp, dispute_transactions_eq] using h
  | resolve c t => simpa only [Engine.applyOp, resolve_transactions_eq] using h
  | chargeback c t => simpa only [Engine.applyOp, chargeback_transactions_eq] using h

/-- A recorded transaction id stays recorded across any sequence of
operations. -/
theorem run_tx_mono (ops : List Op) (e : Engine) (tx : Nat)
    (h : (lookupKey tx e.transactions).isSome) :
    (lookupKey tx (Engine.run e ops).transactions).isSome := by
  induction ops generalizing e with
  | nil => exact h
  | cons op rest ih => exact ih _ (applyOp_tx_mono e op tx h)

/-! ### The locked flag across operations -/

theorem deposit_locked_mono (e : Engine) (c tx : Nat) (am : Currency) (client : Nat)
    (h : Engine.getLocked e client = some true) :
    Engine.getLocked (e.deposit c tx am).2 client = some true := by
  obtain ⟨a, ha, hl⟩ : ∃ a, lookupKey client e.accounts = some a ∧ a.locked = true := by
    unfold Engine.getLocked at h
    cases hx : lookupKey client e.accounts <;> rw [hx] at h <;> simp_all
  unfold Engine.getLocked
  cases htx : lookupKey tx e.transactions with
  | some v => simp [Engine.deposit, Engine.record_transaction, htx, ha, hl]
  | none =>
      simp only [Engine.deposit, Engine.record_transaction, htx]
      cases hacct : lookupKey c e.accounts with
      | some acct =>
          by_cases hcl : acct.locked = true
          · simp [hacct, hcl, ha, hl]
          · cases hadd : acct.available.add am with
            | error s => simp [hacct, hcl, hadd, ha, hl]
            | ok av =>
                cases htot : av.add acct.held with
                | error s => simp [hacct, hcl, hadd, htot, ha, hl]
                | ok t =>
                    by_cases hc : client = c
                    · exfalso
                      subst hc
                      rw [ha] at hacct
                      injection hacct with he
                      rw [← he] at hcl
                      exact hcl hl
                    · simp [hacct, hcl, hadd, htot, lookupKey_upsert, hc, ha, hl]
      | none =>
          cases hadd : Account.default.available.add am with
          | error s => simp [hacct, hadd, ha, hl]
          | ok av =>
              by_cases hc : client = c
              · exfalso
                subst hc
                rw [ha] at hacct
                exact Option.noConfusion hacct
              · simp [hacct, hadd, lookupKey_upsert, hc, ha, hl]

theorem withdrawal_locked_mono (e : Engine) (c tx : Nat) (am : Currency) (client : Nat)
    (h : Engine.getLocked e client = some true) :
    Engine.getLocked (e.withdrawal c tx am).2 client = some true := by
  obtain ⟨a, ha, hl⟩ : ∃ a, lookupKey client e.accounts = some a ∧ a.locked = true := by
    unfold Engine.getLocked at h
    cases hx : lookupKey client e.accounts <;> rw [hx] at h <;> simp_all
  unfold Engine.getLocked
  cases htx : lookupKey tx e.transactions with
  | some v => simp [Engine.withdrawal, Engine.record_transaction, htx, ha, hl]
  | none =>
      simp only [Engine.withdrawal, Engine.record_transaction, htx]
      cases hacct : lookupKey c e.accounts with
      | some acct =>
          by_cases hcl : acct.locked = true
          · simp [hacct, hcl, ha, hl]
          · cases hsub : acct.available.substract am with
            | error s => simp [hacct, hcl, hsub, ha, hl]
            | ok av =>
                by_cases hc : client = c
                · exfalso
                  subst hc
                  rw [ha] at hacct
                  injection hacct with he
                  rw [← he] at hcl
                  exact hcl hl
                · simp [hacct, hcl, hsub, lookupKey_upsert, hc, ha, hl]
      | none => simp [hacct, ha, hl]

theorem dispute_locked_mono (e : Engine) (c tx : Nat) (client : Nat)
    (h : Engine.getLocked e client = some true) :
    Engine.getLocked (e.dispute c tx).2 client = some true := by
  obtain ⟨a, ha, hl⟩ : ∃ a, lookupKey client e.accounts = some a ∧ a.locked = true := by
    unfold Engine.getLocked at h
    cases hx : lookupKey client e.accounts <;> rw [hx] at h <;> simp_all
  unfold Engine.getLocked
  by_cases hd : tx ∈ e.transactionsDisputed
  · simp [Engine.dispute, hd, ha, hl]
  · cases htx : lookupKey tx e.transactions with
    | none => simp [Engine.dispute, Engine.get_transaction_amount, hd, htx, ha, hl]
    | some amt =>
        simp only [Engine.dispute, Engine.get_transaction_amount, htx]
        rw [if_neg (by simpa using hd)]
        cases hacct : lookupKey c e.accounts with
        | none => simp [hacct, ha, hl]
        | some acct =>
            cases hsub : acct.available.substract amt with
            | error s => simp [hacct, hsub, ha, hl]
            | ok av =>
                cases hadd : acct.held.add amt with
                | error s =>
                    by_cases hc : client = c
                    · subst hc
                      rw [ha] at hacct
                      injection hacct with he
                      subst he
                      simp [hsub, hadd, lookupKey_upsert, hl]
                    · simp [hacct, hsub, hadd, lookupKey_upsert, hc, ha, hl]
                | ok hd2 =>
                    by_cases hc : client = c
                    · subst hc
                      rw [ha] at hacct
                      injection hacct with he
                      subst he
                      simp [hsub, hadd, lookupKey_upsert, hl]
                    · simp [hacct, hsub, hadd, lookupKey_upsert, hc, ha, hl]

theorem resolve_locked_mono (e : Engine) (c tx : Nat) (client : Nat)
    (h : Engine.getLocked e client = some true) :
    Engine.getLocked (e.resolve c tx).2 client = some true := by
  obtain ⟨a, ha, hl⟩ : ∃ a, lookupKey client e.accounts = some a ∧ a.locked = true := by
    unfold Engine.getLocked at h
    cases hx : lookupKey client e.accounts <;> rw [hx] at h <;> simp_all
  unfold Engine.getLocked
  cases htx : lookupKey tx e.transactions with
  | none => simp [Engine.resolve, Engine.get_transaction_amount, htx, ha, hl]
  | some amt =>
      by_cases hd : tx ∈ e.transactionsDisputed
      · simp only [Engine.resolve, Engine.get_transaction_amount,
          Engine.ensure_transaction_is_disputed, htx]
        rw [if_pos (by simpa using hd)]
        cases hacct : lookupKey c e.accounts with
        | none => simp [hacct, ha, hl]
        | some acct =>
            cases hadd : acct.available.add amt with
            | error s => simp [hacct, hadd, ha, hl]
            | ok av =>
                cases hsub : acct.held.substract amt with
                | error s =>
                    by_cases hc : client = c
                    · subst hc
                      rw [ha] at hacct
                      injection hacct with he
                      subst he
                      simp [hadd, hsub, lookupKey_upsert, hl]
                    · simp [hacct, hadd, hsub, lookupKey_upsert, hc, ha, hl]
                | ok hd2 =>
                    by_cases hc : client = c
                    · subst hc
                      rw [ha] at hacct
                      injection hacct with he
                      subst he
                      simp [hadd, hsub, lookupKey_upsert, hl,
                        Engine.transaction_remove_from_disputed_list]
                    · simp [hacct, hadd, hsub, lookupKey_upsert, hc, ha, hl,
                        Engine.transaction_remove_from_disputed_list]
      · simp [Engine.resolve, Engine.get_transaction_amount,
          Engine.ensure_transaction_is_disputed, htx, hd, ha, hl]

theorem chargeback_locked_mono (e : Engine) (c tx : Nat) (client : Nat)
    (h : Engine.getLocked e client = some true) :
    Engine.getLocked (e.chargeback c tx).2 client = some true := by
  obtain ⟨a, ha, hl⟩ : ∃ a, lookupKey client e.accounts = some a ∧ a.locked = true := by
    unfold Engine.getLocked at h
    cases hx : lookupKey client e.accounts <;> rw [hx] at h <;> simp_all
  unfold Engine.getLocked
  cases htx : lookupKey tx e.transactions with
  | none => simp [Engine.chargeback, Engine.get_transaction_amount, htx, ha, hl]
  | some amt =>
      by_cases hd : tx ∈ e.transactionsDisputed
      · simp only [Engine.chargeback, Engine.get_transaction_amount,
          Engine.ensure_transaction_is_disputed, htx]
        rw [if_pos (by simpa using hd)]
        cases hacct : lookupKey c e.accounts with
        | none => simp [hacct, ha, hl]
        | some acct =>
            cases hsub : acct.held.substract amt with
            | error s => simp [hacct, hsub, ha, hl]
            | ok hd2 =>
                by_cases hc : client = c
                · subst hc
                  simp [hacct, hsub, lookupKey_upsert,
                    Engine.transaction_remove_from_disputed_list]
                · simp [hacct, hsub, lookupKey_upsert, hc, ha, hl,
                    Engine.transaction_remove_from_disputed_list]
      · simp [Engine.chargeback, Engine.get_transaction_amount,
          Engine.ensure_transaction_is_disputed, htx, hd, ha, hl]

/-- Once an account is locked, it is still locked after any single
operation: no operation ever clears the flag. -/
theorem applyOp_locked_mono (e : Engine) (op : Op) (client : Nat)
    (h : Engine.getLocked e client = some true) :
    Engine.getLocked (e.applyOp op).2 client = some true := by
  cases op with
  | deposit c t a => exact deposit_locked_mono e c t a client h
  | withdrawal c t a => exact withdrawal_locked_mono e c t a client h
  | dispute c t => exact dispute_locked_mono e c t client h
  | resolve c t => exact resolve_locked_mono e c t client h
  | chargeback c t => exact chargeback_locked_mono e c t client h

/-- Once an account is locked, it stays locked across any sequence of
operations. -/
theorem run_locked_mono (ops : List Op) (e : Engine) (client : Nat)
    (h : Engine.getLocked e client = some true) :
    Engine.getLocked (Engine.run e ops) client = some true := by
  induction ops generalizing e with
  | nil => exact h
  | cons op rest ih => exact ih _ (applyOp_locked_mono e op client h)

/-! ### Shared lemmas about duplicate transaction ids and locked accounts -/

theorem deposit_dup_tx (e : Engine) (c t : Nat) (a : Currency)
    (h : (lookupKey t e.transactions).isSome) :
    (e.deposit c t a).1 = .error (.TransactionNotUnique t) := by
  cases hx : lookupKey t e.transactions with
  | none => rw [hx] at h; simp at h
  | some v => simp [Engine.deposit, Engine.record_transaction, hx]

theorem withdrawal_dup_tx (e : Engine) (c t : Nat) (a : Currency)
    (h : (lookupKey t e.transactions).isSome) :
    (e.withdrawal c t a).1 = .error (.TransactionNotUnique t) := by
  cases hx : lookupKey t e.transactions with
  | none => rw [hx] at h; simp at h
  | some v => simp [Engine.withdrawal, Engine.record_transaction, hx]

theorem locked_account_of_getLocked (e : Engine) (c : Nat)
    (h : Engine.getLocked e c = some true) :
    ∃ a, lookupKey c e.accounts = some a ∧ a.locked = true := by
  unfold Engine.getLocked at h
  cases hx : lookupKey c e.accounts <;> rw [hx] at h <;> simp_all

theorem deposit_locked_fails (e : Engine) (c t : Nat) (a : Currency)
    (hl : Engine.getLocked e c = some true)
    (hf : lookupKey t e.transactions = none) :
    (e.deposit c t a).1 = .error (.AccountLocked c) := by
  obtain ⟨acct, ha, hal⟩ := locked_account_of_getLocked e c hl
  simp [Engine.deposit, Engine.record_transaction, hf, ha, hal]

theorem withdrawal_locked_fails (e : Engine) (c t : Nat) (a : Currency)
    (hl : Engine.getLocked e c = some true)
    (hf : lookupKey t e.transactions = none) :
    (e.withdrawal c t a).1 = .error (.AccountLocked c) := by
  obtain ⟨acct, ha, hal⟩ := locked_account_of_getLocked e c hl
  simp [Engine.withdrawal, Engine.record_transaction, hf, ha, hal]

/-! ### Claims -/

/-- Claim C1 (refuted by the code; the spec's atomicity-per-call is the
stated intent): a `resolve` that fails with `ResolveCannotSubstractHeld`
does NOT leave `available` unchanged.  Concretely, after
deposit(1,1,5.0), deposit(2,2,5.0), dispute(2,1) — client 2 disputing
client 1's transaction, which the engine permits — the call
resolve(1,1) returns the error, yet client 1's `available` has grown
from 5.0 to 10.0: the `available` increment is committed in place
before the `held` subtraction fails. -/
theorem c1_failed_resolve_mutates_state :
    ((Engine.run Engine.new
        [.deposit 1 1 ⟨50000⟩, .deposit 2 2 ⟨50000⟩, .dispute 2 1]).resolve 1 1).1
      = .error (.ResolveCannotSubstractHeld .SubstractingOtherNegative)
    ∧ (Engine.run Engine.new
        [.deposit 1 1 ⟨50000⟩, .deposit 2 2 ⟨50000⟩, .dispute 2 1]).getAvailable 1
      = some 50000
    ∧ ((Engine.run Engine.new
        [.deposit 1 1 ⟨50000⟩, .deposit 2 2 ⟨50000⟩, .dispute 2 1]).resolve 1 1).2.getAvailable 1
      = some 100000 := by decide

/-- Claim C2 (refuted by the code; round-trip rendering is the stated
intent): the value created from (0, 1), i.e. 0.0001, renders as "0.1"
because `Display` prints the fractional part without zero-padding, and
parsing that text back yields 0.1000 — not an equal value. -/
theorem c2_render_does_not_roundtrip :
    Currency.new 0 1 = .ok ⟨1⟩
    ∧ Currency.render ⟨1⟩ = "0.1"
    ∧ Currency.tryFrom (Currency.render ⟨1⟩) = .ok ⟨1000⟩
    ∧ Currency.tryFrom (Currency.render ⟨1⟩) ≠ .ok ⟨1⟩ := by decide

/-- Claim C3, counterexample: after deposit(1,1,max) and dispute(1,1)
the account has available = 0 and held = max; tx 2 is fresh, the
account is not locked, and adding max to available = 0 does not
overflow, so the claim says deposit(1,2,max) succeeds — but the code
rejects it with `CannotDepositTotalExceededMaxLimit`, a failure that
depends on the account's held balance. -/
theorem c3_counterexample_total_check :
    lookupKey 2 (Engine.run Engine.new
        [.deposit 1 1 Currency.maxValue, .dispute 1 1]).transactions = none
    ∧ lookupKey 1 (Engine.run Engine.new
        [.deposit 1 1 Currency.maxValue, .dispute 1 1]).accounts
        = some ⟨⟨0⟩, Currency.maxValue, false⟩
    ∧ Currency.add ⟨0⟩ Currency.maxValue = .ok Currency.maxValue
    ∧ ((Engine.run Engine.new
        [.deposit 1 1 Currency.maxValue, .dispute 1 1]).deposit 1 2 Currency.maxValue).1
      = .error (.CannotDepositTotalExceededMaxLimit 1 2 Currency.maxValue
          Currency.maxValue Currency.maxValue .AddingOtherOutOfRange) := by decide

/-- Claim C3 (amended): `deposit(client, tx, amount)` fails with
`TransactionNotUnique` if tx was ever recorded, fails with
`AccountLocked` if the account exists and is locked, and otherwise
succeeds and adds amount to `available` provided neither the new
available nor — on an existing account — the new available plus held
overflows; the account is created with zero balances first if it does
not exist.  Unlike the original claim, an existing-account deposit DOES
have a failure that depends on `held`: the on-the-spot total check
`CannotDepositTotalExceededMaxLimit`. -/
theorem c3_deposit_behaviour (e : Engine) (client tx : Nat) (amount : Currency) :
    ((lookupKey tx e.transactions).isSome →
      (e.deposit client tx amount).1 = .error (.TransactionNotUnique tx))
    ∧ (lookupKey tx e.transactions = none →
        (∀ a, lookupKey client e.accounts = some a →
          (a.locked = true →
            (e.deposit client tx amount).1 = .error (.AccountLocked client))
          ∧ (a.locked = false →
              (∀ av t, a.available.add amount = .ok av → av.add a.held = .ok t →
                e.deposit client tx amount = (.ok (),
                  { e with
                    transactions := upsert tx amount e.transactions,
                    accounts := upsert client { a with available := av } e.accounts }))
              ∧ (∀ av src, a.available.add amount = .ok av → av.add a.held = .error src →
                  (e.deposit client tx amount).1
                    = .error (.CannotDepositTotalExceededMaxLimit client tx amount
                        av a.held src))))
        ∧ (lookupKey client e.accounts = none → amount.wf →
            e.deposit client tx amount = (.ok (),
              { e with
                transactions := upsert tx amount e.transactions,
                accounts := upsert client { Account.default with available := amount }
                  e.accounts }))) := by
  refine ⟨fun hs => deposit_dup_tx e client tx amount hs, fun hfresh => ⟨?_, ?_⟩⟩
  · intro a hacct
    refine ⟨?_, ?_⟩
    · intro hl
      simp [Engine.deposit, Engine.record_transaction, hfresh, hacct, hl]
    · intro hl
      refine ⟨?_, ?_⟩
      · intro av t hadd htot
        simp [Engine.deposit, Engine.record_transaction, hfresh, hacct, hl, hadd, htot]
      · intro av src hadd htot
        simp [Engine.deposit, Engine.record_transaction, hfresh, hacct, hl, hadd, htot]
  · intro hnone hwf
    obtain ⟨v⟩ := amount
    have hv : ¬ (v > U64MAX) := by
      unfold Currency.wf at hwf
      simpa using hwf
    have hadd : Account.default.available.add ⟨v⟩ = .ok ⟨v⟩ := by
      simp [Currency.add, Account.default, hv]
    simp [Engine.deposit, Engine.record_transaction, hfresh, hnone, hadd]

/-- Witness for C3: a first deposit on a fresh engine succeeds and
creates the account. -/
theorem c3_deposit_behaviour_witness :
    Engine.new.deposit 7 9 ⟨123⟩ = (.ok (),
      { Engine.new with
        transactions := upsert 9 ⟨123⟩ Engine.new.transactions,
        accounts := upsert 7 { Account.default with available := ⟨123⟩ }
          Engine.new.accounts }) :=
  ((c3_deposit_behaviour Engine.new 7 9 ⟨123⟩).2 rfl).2 rfl (by decide)

/-- Claim C4: `dispute` succeeds only from the "recorded, not disputed"
state, failing with `DisputeAlreadyDisputed` when tx is in the disputed
set, `CannotFindTransaction` when tx is unknown (and not disputed), and
`CannotFindAccount` when the client has no account; on success it moves
the recorded amount from `available` to `held` and adds tx to the
disputed set.  `resolve` and `chargeback` fail with
`CannotFindTransaction` on an unknown tx and with
`TransactionNotDisputed` when tx is not in the disputed set. -/
theorem c4_dispute_lifecycle (e : Engine) (client tx : Nat) :
    (tx ∈ e.transactionsDisputed →
      e.dispute client tx = (.error (.DisputeAlreadyDisputed tx), e))
    ∧ (tx ∉ e.transactionsDisputed → lookupKey tx e.transactions = none →
        e.dispute client tx = (.error (.CannotFindTransaction tx), e))
    ∧ (tx ∉ e.transactionsDisputed → (lookupKey tx e.transactions).isSome →
        lookupKey client e.accounts = none →
        e.dispute client tx = (.error (.CannotFindAccount client), e))
    ∧ ((e.dispute client tx).1 = .ok () →
        tx ∉ e.transactionsDisputed
        ∧ (lookupKey tx e.transactions).isSome
        ∧ tx ∈ (e.dispute client tx).2.transactionsDisputed)
    ∧ (∀ amt a av h2, tx ∉ e.transactionsDisputed →
        lookupKey tx e.transactions = some amt →
        lookupKey client e.accounts = some a →
        a.available.substract amt = .ok av →
        a.held.add amt = .ok h2 →
        e.dispute client tx = (.ok (),
          { e with
            accounts := upsert client { a with available := av, held := h2 } e.accounts,
            transactionsDisputed := insertSet tx e.transactionsDisputed }))
    ∧ (lookupKey tx e.transactions = none →
        e.resolve client tx = (.error (.CannotFindTransaction tx), e)
        ∧ e.chargeback client tx = (.error (.CannotFindTransaction tx), e))
    ∧ ((lookupKey tx e.transactions).isSome → tx ∉ e.transactionsDisputed →
        e.resolve client tx = (.error (.TransactionNotDisputed tx), e)
        ∧ e.chargeback client tx = (.error (.TransactionNotDisputed tx), e)) := by
  refine ⟨?_, ?_, ?_, ?_, ?_, ?_, ?_⟩
  · intro hd
    simp [Engine.dispute, hd]
  · intro hd htx
    simp [Engine.dispute, Engine.get_transaction_amount, hd, htx]
  · intro hd htx hacct
    cases hx : lookupKey tx e.transactions with
    | none => rw [hx] at htx; simp at htx
    | some amt => simp [Engine.dispute, Engine.get_transaction_amount, hd, hx, hacct]
  · intro hok
    by_cases hd : tx ∈ e.transactionsDisputed
    · exfalso
      simp [Engine.dispute, hd] at hok
    · cases htx : lookupKey tx e.transactions with
      | none =>
          exfalso
          simp [Engine.dispute, Engine.get_transaction_amount, hd, htx] at hok
      | some amt =>
          refine ⟨hd, by simp, ?_⟩
          cases hacct : lookupKey client e.accounts with
          | none =>
              exfalso
              simp [Engine.dispute, Engine.get_transaction_amount, hd, htx, hacct] at hok
          | some a =>
              cases hsub : a.available.substract amt with
              | error s =>
                  exfalso
                  simp [Engine.dispute, Engine.get_transaction_amount,
                    hd, htx, hacct, hsub] at hok
              | ok av =>
                  cases hadd : a.held.add amt with
                  | error s =>
                      exfalso
                      simp [Engine.dispute, Engine.get_transaction_amount,
                        hd, htx, hacct, hsub, hadd] at hok
                  | ok h2 =>
                      simp [Engine.dispute, Engine.get_transaction_amount,
                        hd, htx, hacct, hsub, hadd, insertSet]
  · intro amt a av h2 hd htx hacct hsub hadd
    simp [Engine.dispute, Engine.get_transaction_amount, hd, htx, hacct, hsub, hadd]
  · intro htx
    constructor
    · simp [Engine.resolve, Engine.get_transaction_amount, htx]
    · simp [Engine.chargeback, Engine.get_transaction_amount, htx]
  · intro htx hd
    cases hx : lookupKey tx e.transactions with
    | none => rw [hx] at htx; simp at htx
    | some amt =>
        constructor
        · simp [Engine.resolve, Engine.get_transaction_amount,
            Engine.ensure_transaction_is_disputed, hx, hd]
        · simp [Engine.chargeback, Engine.get_transaction_amount,
            Engine.ensure_transaction_is_disputed, hx, hd]

/-- Witness for C4: a dispute of an unknown transaction on a fresh
engine fails with `CannotFindTransaction`. -/
theorem c4_dispute_lifecycle_witness :
    Engine.new.dispute 3 4 = (.error (.CannotFindTransaction 4), Engine.new) :=
  (c4_dispute_lifecycle Engine.new 3 4).2.1 (by decide) rfl

/-- Claim C5: a deposit or withdrawal with transaction id tx records tx
before attempting the balance mutation, so the id is consumed whatever
the outcome (the resulting transaction log always maps tx to the
attempted amount); and once tx is recorded, any later deposit or
withdrawal using tx — after arbitrarily many intervening operations —
fails with `TransactionNotUnique`. -/
theorem c5_txid_consumed (e : Engine) (client tx : Nat) (amount : Currency)
    (op1 op2 : Op) (mid : List Op) :
    lookupKey tx (e.deposit client tx amount).2.transactions = some amount
    ∧ lookupKey tx (e.withdrawal client tx amount).2.transactions = some amount
    ∧ ((lookupKey tx e.transactions).isSome →
        (e.deposit client tx amount).1 = .error (.TransactionNotUnique tx)
        ∧ (e.withdrawal client tx amount).1 = .error (.TransactionNotUnique tx))
    ∧ (Op.usesTxId op1 tx → Op.usesTxId op2 tx →
        ((Engine.run (e.applyOp op1).2 mid).applyOp op2).1
          = .error (.TransactionNotUnique tx)) := by
  refine ⟨?_, ?_, ?_, ?_⟩
  · rw [deposit_transactions_eq, lookupKey_upsert_self]
  · rw [withdrawal_transactions_eq, lookupKey_upsert_self]
  · intro hs
    exact ⟨deposit_dup_tx e client tx amount hs,
      withdrawal_dup_tx e client tx amount hs⟩
  · intro h1 h2
    have hrec : (lookupKey tx (e.applyOp op1).2.transactions).isSome := by
      cases op1 with
      | deposit c t a =>
          simp only [Op.usesTxId] at h1
          subst h1
          simp [Engine.applyOp, deposit_transactions_eq, lookupKey_upsert_self]
      | withdrawal c t a =>
          simp only [Op.usesTxId] at h1
          subst h1
          simp [Engine.applyOp, withdrawal_transactions_eq, lookupKey_upsert_self]
      | dispute c t => exact absurd h1 (by simp [Op.usesTxId])
      | resolve c t => exact absurd h1 (by simp [Op.usesTxId])
      | chargeback c t => exact absurd h1 (by simp [Op.usesTxId])
    have hrun := run_tx_mono mid _ tx hrec
    cases op2 with
    | deposit c t a =>
        simp only [Op.usesTxId] at h2
        subst h2
        exact deposit_dup_tx _ c t a hrun
    | withdrawal c t a =>
        simp only [Op.usesTxId] at h2
        subst h2
        exact withdrawal_dup_tx _ c t a hrun
    | dispute c t => exact absurd h2 (by simp [Op.usesTxId])
    | resolve c t => exact absurd h2 (by simp [Op.usesTxId])
    | chargeback c t => exact absurd h2 (by simp [Op.usesTxId])

/-- Witness for C5: a second deposit reusing tx id 1 after a failed
withdrawal that consumed it is rejected. -/
theorem c5_txid_consumed_witness :
    ((Engine.run (Engine.new.applyOp (.withdrawal 1 1 ⟨50000⟩)).2 []).applyOp
        (.deposit 1 1 ⟨50000⟩)).1 = .error (.TransactionNotUnique 1) :=
  (c5_txid_consumed Engine.new 1 1 ⟨50000⟩
      (.withdrawal 1 1 ⟨50000⟩) (.deposit 1 1 ⟨50000⟩) []).2.2.2 rfl rfl

/-- Claim C6: given a recorded, disputed transaction and an existing
account, a successful `chargeback` subtracts the recorded amount from
`held` only (the state equation shows `available` untouched), sets
`locked := true`, and removes tx from the disputed set; it fails with
`ChargebackCannotSubstractHeld` when `held` is smaller than the
recorded amount; and in the scenario deposit(1,1,1.0), dispute(1,1),
chargeback(1,1) the result is available = 0, held = 0, locked. -/
theorem c6_chargeback_behaviour (e : Engine) (client tx : Nat)
    (amt : Currency) (a : Account) :
    (lookupKey tx e.transactions = some amt → tx ∈ e.transactionsDisputed →
      lookupKey client e.accounts = some a →
      (∀ h2, a.held.substract amt = .ok h2 →
        e.chargeback client tx = (.ok (),
          { e with
            accounts := upsert client { a with held := h2, locked := true } e.accounts,
            transactionsDisputed := eraseSet tx e.transactionsDisputed }))
      ∧ (amt.val > a.held.val →
          e.chargeback client tx
            = (.error (.ChargebackCannotSubstractHeld .SubstractingOtherNegative), e)))
    ∧ ((Engine.run Engine.new
          [.deposit 1 1 ⟨10000⟩, .dispute 1 1, .chargeback 1 1]).getAvailable 1 = some 0
       ∧ (Engine.run Engine.new
          [.deposit 1 1 ⟨10000⟩, .dispute 1 1, .chargeback 1 1]).getHeld 1 = some 0
       ∧ (Engine.run Engine.new
          [.deposit 1 1 ⟨10000⟩, .dispute 1 1, .chargeback 1 1]).getLocked 1 = some true) := by
  refine ⟨?_, by decide⟩
  intro htx hd hacct
  constructor
  · intro h2 hsub
    simp [Engine.chargeback, Engine.get_transaction_amount,
      Engine.ensure_transaction_is_disputed, Engine.transaction_remove_from_disputed_list,
      htx, hd, hacct, hsub]
  · intro hgt
    have hsub : a.held.substract amt = .error .SubstractingOtherNegative := by
      simp [Currency.substract, hgt]
    simp [Engine.chargeback, Engine.get_transaction_amount,
      Engine.ensure_transaction_is_disputed, htx, hd, hacct, hsub]

/-- Witness for C6: chargeback after deposit(5,8,2.0) and dispute(5,8)
voids the held funds and locks account 5. -/
theorem c6_chargeback_behaviour_witness :
    (Engine.run Engine.new [.deposit 5 8 ⟨20000⟩, .dispute 5 8]).chargeback 5 8
      = (.ok (),
        { Engine.run Engine.new [.deposit 5 8 ⟨20000⟩, .dispute 5 8] with
          accounts := upsert 5 { Account.mk ⟨0⟩ ⟨20000⟩ false with
              held := ⟨0⟩, locked := true }
            (Engine.run Engine.new [.deposit 5 8 ⟨20000⟩, .dispute 5 8]).accounts,
          transactionsDisputed := eraseSet 8
            (Engine.run Engine.new [.deposit 5 8 ⟨20000⟩, .dispute 5 8]).transactionsDisputed }) :=
  ((c6_chargeback_behaviour (Engine.run Engine.new [.deposit 5 8 ⟨20000⟩, .dispute 5 8])
      5 8 ⟨20000⟩ (Account.mk ⟨0⟩ ⟨20000⟩ false)).1
    (by decide) (by decide) (by decide)).1 ⟨0⟩ (by decide)

/-- Claim C7: a successful chargeback leaves the account locked, the
flag survives any later sequence of operations (no operation clears
it), and a locked account rejects every deposit and withdrawal — with
`AccountLocked` whenever the attempted transaction id is fresh (a
reused id is rejected by the earlier uniqueness check instead). -/
theorem c7_chargeback_locks_permanently (e : Engine) (client tx tx2 : Nat)
    (amount : Currency) (ops : List Op) :
    ((e.chargeback client tx).1 = .ok () →
      (e.chargeback client tx).2.getLocked client = some true)
    ∧ (e.getLocked client = some true →
        (Engine.run e ops).getLocked client = some true
        ∧ (e.deposit client tx2 amount).1 ≠ .ok ()
        ∧ (e.withdrawal client tx2 amount).1 ≠ .ok ()
        ∧ (lookupKey tx2 e.transactions = none →
            (e.deposit client tx2 amount).1 = .error (.AccountLocked client)
            ∧ (e.withdrawal client tx2 amount).1 = .error (.AccountLocked client))) := by
  constructor
  · intro hok
    cases htx : lookupKey tx e.transactions with
    | none =>
        exfalso
        simp [Engine.chargeback, Engine.get_transaction_amount, htx] at hok
    | some amt =>
        by_cases hd : tx ∈ e.transactionsDisputed
        · cases hacct : lookupKey client e.accounts with
          | none =>
              exfalso
              simp [Engine.chargeback, Engine.get_transaction_amount,
                Engine.ensure_transaction_is_disputed, htx, hd, hacct] at hok
          | some a =>
              cases hsub : a.held.substract amt with
              | error s =>
                  exfalso
                  simp [Engine.chargeback, Engine.get_transaction_amount,
                    Engine.ensure_transaction_is_disputed, htx, hd, hacct, hsub] at hok
              | ok h2 =>
                  simp [Engine.chargeback, Engine.get_transaction_amount,
                    Engine.ensure_transaction_is_disputed,
                    Engine.transaction_remove_from_disputed_list, Engine.getLocked,
                    htx, hd, hacct, hsub, lookupKey_upsert_self]
        · exfalso
          simp [Engine.chargeback, Engine.get_transaction_amount,
            Engine.ensure_transaction_is_disputed, htx, hd] at hok
  · intro hl
    refine ⟨run_locked_mono ops e client hl, ?_, ?_, ?_⟩
    · by_cases hf : lookupKey tx2 e.transactions = none
      · rw [deposit_locked_fails e client tx2 amount hl hf]
        simp
      · have hs : (lookupKey tx2 e.transactions).isSome := by
          cases hx : lookupKey tx2 e.transactions with
          | none => exact absurd hx hf
          | some v => simp
        rw [deposit_dup_tx e client tx2 amount hs]
        simp
    · by_cases hf : lookupKey tx2 e.transactions = none
      · rw [withdrawal_locked_fails e client tx2 amount hl hf]
        simp
      · have hs : (lookupKey tx2 e.transactions).isSome := by
          cases hx : lookupKey tx2 e.transactions with
          | none => exact absurd hx hf
          | some v => simp
        rw [withdrawal_dup_tx e client tx2 amount hs]
        simp
    · intro hf
      exact ⟨deposit_locked_fails e client tx2 amount hl hf,
        withdrawal_locked_fails e client tx2 amount hl hf⟩

/-- Witness for C7: after the chargeback scenario, account 1 stays
locked across further operations and a fresh-tx deposit is rejected
with the locked-account error. -/
theorem c7_chargeback_locks_permanently_witness :
    (Engine.run (Engine.run Engine.new
        [.deposit 1 1 ⟨10000⟩, .dispute 1 1, .chargeback 1 1])
      [.dispute 1 1, .resolve 1 1]).getLocked 1 = some true
    ∧ ((Engine.run Engine.new
        [.deposit 1 1 ⟨10000⟩, .dispute 1 1, .chargeback 1 1]).deposit 1 2 ⟨10000⟩).1
      = .error (.AccountLocked 1) :=
  ⟨((c7_chargeback_locks_permanently
      (Engine.run Engine.new [.deposit 1 1 ⟨10000⟩, .dispute 1 1, .chargeback 1 1])
      1 1 2 ⟨10000⟩ [.dispute 1 1, .resolve 1 1]).2 (by decide)).1,
   (((c7_chargeback_locks_permanently
      (Engine.run Engine.new [.deposit 1 1 ⟨10000⟩, .dispute 1 1, .chargeback 1 1])
      1 1 2 ⟨10000⟩ [.dispute 1 1, .resolve 1 1]).2 (by decide)).2.2.2 (by decide)).1⟩

/-- Claim C8: `withdrawal(client, tx, amount)` fails with
`TransactionNotUnique` if tx was ever used, with `AccountDoesNotExist`
if the client has no account, with `AccountLocked` if the account is
locked, fails with the insufficient-funds error
(`CannotWithdrawal`/`SubstractingOtherNegative`) exactly when
amount > available, and otherwise succeeds, subtracting amount from
`available` and leaving `held` and `locked` unchanged. -/
theorem c8_withdrawal_behaviour (e : Engine) (client tx : Nat) (amount : Currency) :
    ((lookupKey tx e.transactions).isSome →
      (e.withdrawal client tx amount).1 = .error (.TransactionNotUnique tx))
    ∧ (lookupKey tx e.transactions = none →
        (lookupKey client e.accounts = none →
          (e.withdrawal client tx amount).1 = .error (.AccountDoesNotExist client))
        ∧ (∀ a, lookupKey client e.accounts = some a →
            (a.locked = true →
              (e.withdrawal client tx amount).1 = .error (.AccountLocked client))
            ∧ (a.locked = false →
                ((e.withdrawal client tx amount).1
                    = .error (.CannotWithdrawal client tx amount .SubstractingOtherNegative)
                  ↔ amount.val > a.available.val)
                ∧ (amount.val ≤ a.available.val →
                    e.withdrawal client tx amount = (.ok (),
                      { e with
                        transactions := upsert tx amount e.transactions,
                        accounts := upsert client
                          { a with available := ⟨a.available.val - amount.val⟩ }
                          e.accounts }))))) := by
  refine ⟨fun hs => withdrawal_dup_tx e client tx amount hs, fun hfresh => ⟨?_, ?_⟩⟩
  · intro hacct
    simp [Engine.withdrawal, Engine.record_transaction, hfresh, hacct]
  · intro a hacct
    refine ⟨?_, ?_⟩
    · intro hl
      simp [Engine.withdrawal, Engine.record_transaction, hfresh, hacct, hl]
    · intro hl
      refine ⟨⟨?_, ?_⟩, ?_⟩
      · intro herr
        by_contra hng
        have hle : amount.val ≤ a.available.val := by omega
        have hsub : a.available.substract amount = .ok ⟨a.available.val - amount.val⟩ := by
          have : ¬ (amount.val > a.available.val) := by omega
          simp [Currency.substract, this]
        simp [Engine.withdrawal, Engine.record_transaction,
          hfresh, hacct, hl, hsub] at herr
      · intro hgt
        have hsub : a.available.substract amount = .error .SubstractingOtherNegative := by
          simp [Currency.substract, hgt]
        simp [Engine.withdrawal, Engine.record_transaction, hfresh, hacct, hl, hsub]
      · intro hle
        have hsub : a.available.substract amount = .ok ⟨a.available.val - amount.val⟩ := by
          have : ¬ (amount.val > a.available.val) := by omega
          simp [Currency.substract, this]
        simp [Engine.withdrawal, Engine.record_transaction, hfresh, hacct, hl, hsub]

/-- Witness for C8: withdrawing 3.0 after depositing 5.0 succeeds. -/
theorem c8_withdrawal_behaviour_witness :
    ((Engine.run Engine.new [.deposit 1 1 ⟨50000⟩]).withdrawal 1 2 ⟨30000⟩).1 = .ok () :=
  congrArg Prod.fst
    ((((((c8_withdrawal_behaviour (Engine.run Engine.new [.deposit 1 1 ⟨50000⟩])
        1 2 ⟨30000⟩).2 rfl).2 (Account.mk ⟨50000⟩ ⟨0⟩ false) rfl).2 rfl).2) (by decide))

/-- Claim C9: the engine's transaction log maps tx id to amount only
(no client), so `dispute` never checks that the disputed transaction
belongs to the given client: for ANY client with an account and ANY
recorded, not-yet-disputed transaction, `dispute(client, tx)` moves
that transaction's amount from the named client's `available` to its
`held` when the arithmetic succeeds; and a chargeback built on another
client's transaction locks the account, as the concrete scenario
deposit(1,1,5.0), deposit(2,2,5.0), dispute(2,1), chargeback(2,1)
shows. -/
theorem c9_dispute_ignores_tx_owner (e : Engine) (client tx : Nat)
    (amt av h2 : Currency) (a : Account) :
    (lookupKey tx e.transactions = some amt →
     tx ∉ e.transactionsDisputed →
     lookupKey client e.accounts = some a →
     a.available.substract amt = .ok av →
     a.held.add amt = .ok h2 →
     e.dispute client tx = (.ok (),
       { e with
         accounts := upsert client { a with available := av, held := h2 } e.accounts,
         transactionsDisputed := insertSet tx e.transactionsDisputed }))
    ∧ ((Engine.run Engine.new
          [.deposit 1 1 ⟨50000⟩, .deposit 2 2 ⟨50000⟩]).dispute 2 1).1 = .ok ()
    ∧ (Engine.run Engine.new
        [.deposit 1 1 ⟨50000⟩, .deposit 2 2 ⟨50000⟩, .dispute 2 1]).getAvailable 2 = some 0
    ∧ (Engine.run Engine.new
        [.deposit 1 1 ⟨50000⟩, .deposit 2 2 ⟨50000⟩, .dispute 2 1]).getHeld 2 = some 50000
    ∧ (Engine.run Engine.new
        [.deposit 1 1 ⟨50000⟩, .deposit 2 2 ⟨50000⟩, .dispute 2 1,
          .chargeback 2 1]).getLocked 2 = some true := by
  refine ⟨?_, by decide, by decide, by decide, by decide⟩
  intro htx hd hacct hsub hadd
  simp [Engine.dispute, Engine.get_transaction_amount, hd, htx, hacct, hsub, hadd]

/-- Witness for C9: client 2 disputes client 1's transaction 1. -/
theorem c9_dispute_ignores_tx_owner_witness :
    ((Engine.run Engine.new
        [.deposit 1 1 ⟨50000⟩, .deposit 2 2 ⟨50000⟩]).dispute 2 1).1 = .ok () :=
  congrArg Prod.fst
    ((c9_dispute_ignores_tx_owner
        (Engine.run Engine.new [.deposit 1 1 ⟨50000⟩, .deposit 2 2 ⟨50000⟩])
        2 1 ⟨50000⟩ ⟨0⟩ ⟨50000⟩ (Account.mk ⟨50000⟩ ⟨0⟩ false)).1
      rfl (by decide) rfl (by decide) (by decide))

/-- Claim C10: only `deposit` and `withdrawal` consult the `locked`
flag: on a locked account, `dispute`, `resolve` and `chargeback` still
succeed whenever their other preconditions hold, so a brand-new dispute
can be opened on an already-locked account and change its balances —
as the concrete scenario (deposit twice, dispute+chargeback tx 1 to
lock, then dispute tx 2) shows. -/
theorem c10_disputes_ignore_locked (e : Engine) (client tx : Nat)
    (amt : Currency) (a : Account) :
    (a.locked = true →
      lookupKey tx e.transactions = some amt →
      lookupKey client e.accounts = some a →
      ((tx ∉ e.transactionsDisputed →
        ∀ av h2, a.available.substract amt = .ok av → a.held.add amt = .ok h2 →
          (e.dispute client tx).1 = .ok ())
      ∧ (tx ∈ e.transactionsDisputed →
          (∀ av h2, a.available.add amt = .ok av → a.held.substract amt = .ok h2 →
            (e.resolve client tx).1 = .ok ())
          ∧ (∀ h2, a.held.substract amt = .ok h2 →
              (e.chargeback client tx).1 = .ok ()))))
    ∧ (Engine.run Engine.new
        [.deposit 1 1 ⟨50000⟩, .deposit 1 2 ⟨50000⟩, .dispute 1 1,
          .chargeback 1 1]).getLocked 1 = some true
    ∧ ((Engine.run Engine.new
        [.deposit 1 1 ⟨50000⟩, .deposit 1 2 ⟨50000⟩, .dispute 1 1,
          .chargeback 1 1]).dispute 1 2).1 = .ok ()
    ∧ ((Engine.run Engine.new
        [.deposit 1 1 ⟨50000⟩, .deposit 1 2 ⟨50000⟩, .dispute 1 1,
          .chargeback 1 1]).dispute 1 2).2.getAvailable 1 = some 0
    ∧ ((Engine.run Engine.new
        [.deposit 1 1 ⟨50000⟩, .deposit 1 2 ⟨50000⟩, .dispute 1 1,
          .chargeback 1 1]).dispute 1 2).2.getHeld 1 = some 50000 := by
  refine ⟨?_, by decide, by decide, by decide, by decide⟩
  intro _hl htx hacct
  refine ⟨?_, ?_⟩
  · intro hd av h2 hsub hadd
    simp [Engine.dispute, Engine.get_transaction_amount, hd, htx, hacct, hsub, hadd]
  · intro hd
    refine ⟨?_, ?_⟩
    · intro av h2 hadd hsub
      simp [Engine.resolve, Engine.get_transaction_amount,
        Engine.ensure_transaction_is_disputed, Engine.transaction_remove_from_disputed_list,
        hd, htx, hacct, hadd, hsub]
    · intro h2 hsub
      simp [Engine.chargeback, Engine.get_transaction_amount,
        Engine.ensure_transaction_is_disputed, Engine.transaction_remove_from_disputed_list,
        hd, htx, hacct, hsub]

/-- Witness for C10: dispute of tx 2 on the locked account 1. -/
theorem c10_disputes_ignore_locked_witness :
    ((Engine.run Engine.new
        [.deposit 1 1 ⟨50000⟩, .deposit 1 2 ⟨50000⟩, .dispute 1 1,
          .chargeback 1 1]).dispute 1 2).1 = .ok () :=
  (((c10_disputes_ignore_locked
      (Engine.run Engine.new
        [.deposit 1 1 ⟨50000⟩, .deposit 1 2 ⟨50000⟩, .dispute 1 1, .chargeback 1 1])
      1 2 ⟨50000⟩ (Account.mk ⟨50000⟩ ⟨0⟩ true)).1
    rfl rfl (by decide)).1 (by decide) ⟨0⟩ ⟨50000⟩ (by decide) (by decide))
